import Mathlib

/-!
Verification of the Multi-Paxos role implementation (`src/role.py`).

This file gives a shallow embedding of the data model and the message
handlers of the five roles (Acceptor, Replica, Leader, Scout, Commander)
and proves or refutes the frozen claims about them.

Modelling conventions:
* node addresses are natural numbers (the source uses non-empty strings;
  only their equality and total order are ever used);
* Python dicts keyed by slot become insertion-ordered association lists
  (`dictGet` / `dictSet` mirror `d[k]` lookup and assignment);
* a handler that sends messages returns them alongside the new state;
* a handler that can raise returns `Option` / `Except`;
* Python truthiness is modelled explicitly where the source relies on it
  (`if not slot:` treats both `None` and `0` as false; a namedtuple such
  as `Proposal` or `Ballot` is always truthy).
-/

/-- A node address. The source uses strings such as `'N1'`; only equality,
order and list membership matter, so we embed them as naturals. -/
abbrev Addr := Nat

/-- `message.Ballot`: a namedtuple `(n, leader)`, compared lexicographically
(Python tuple comparison). -/
structure Ballot where
  n : Int
  leader : Addr
deriving DecidableEq, Repr

/-- Python `<` on `Ballot` namedtuples: lexicographic on `(n, leader)`. -/
def Ballot.lt (a b : Ballot) : Prop :=
  a.n < b.n ∨ (a.n = b.n ∧ a.leader < b.leader)

instance (a b : Ballot) : Decidable (Ballot.lt a b) := by
  unfold Ballot.lt; infer_instance

/-- Reflexive closure of `Ballot.lt`. -/
def Ballot.le (a b : Ballot) : Prop := a = b ∨ Ballot.lt a b

instance (a b : Ballot) : Decidable (Ballot.le a b) := by
  unfold Ballot.le; infer_instance

/-- Modelled from the spec (the constant lives in `common.py`, which is not
among the repository files): "A distinguished NULL ballot is strictly less
than every real ballot"; real ballots start at round 0. -/
def NULL_BALLOT : Ballot := ⟨-1, 0⟩

/-- `message.Proposal`: an immutable namedtuple `(caller, client_id, input)`;
`caller` may be `None` (a no-op). Equality is structural. -/
structure Proposal where
  caller : Option Addr
  client_id : Int
  input : Int
deriving DecidableEq, Repr

/-- Python dict lookup `d.get(k)` on an insertion-ordered association list. -/
def dictGet {α : Type} (d : List (Nat × α)) (k : Nat) : Option α :=
  match d with
  | [] => none
  | e :: t => if e.1 = k then some e.2 else dictGet t k

/-- Python `k in d`. -/
def dictHas {α : Type} (d : List (Nat × α)) (k : Nat) : Bool :=
  (dictGet d k).isSome

/-- Python dict assignment `d[k] = v`: update in place if the key exists,
otherwise append (preserving insertion order, as Python dicts do). -/
def dictSet {α : Type} (d : List (Nat × α)) (k : Nat) (v : α) : List (Nat × α) :=
  match d with
  | [] => [(k, v)]
  | e :: t => if e.1 = k then (k, v) :: t else e :: dictSet t k v

/-- Messages an Acceptor emits (`message.py` shapes, restricted to fields
the handlers produce). -/
inductive AMsg
  | Accepting (leader : Addr)
  | Promise (ballot_num : Ballot) (accepted_proposals : List (Nat × Ballot × Proposal))
  | Accepted (slot : Nat) (ballot_num : Ballot)
deriving DecidableEq, Repr

/-- `Acceptor` state: the most recent promise and the accepted proposals per
slot (`{slot: (ballot_num, proposal)}`). -/
structure AcceptorState where
  ballot_num : Ballot
  accepted_proposals : List (Nat × Ballot × Proposal)
deriving DecidableEq, Repr

/-- `Acceptor.__init__` (role.py lines 23-26). -/
def Acceptor.init : AcceptorState :=
  { ballot_num := NULL_BALLOT, accepted_proposals := [] }

/-- `Acceptor.do_Prepare` (role.py lines 29-38): on a strictly higher ballot,
update the promise and notify the local node with `Accepting(leader=sender)`;
always reply `Promise(current promise, full accepted map)`. -/
def Acceptor.do_Prepare (st : AcceptorState) (sender : Addr) (ballot_num : Ballot) :
    AcceptorState × List AMsg :=
  if Ballot.lt st.ballot_num ballot_num then
    let st1 : AcceptorState := { st with ballot_num := ballot_num }
    (st1, [AMsg.Accepting sender, AMsg.Promise st1.ballot_num st1.accepted_proposals])
  else
    (st, [AMsg.Promise st.ballot_num st.accepted_proposals])

/-- `Acceptor.do_Accept` (role.py lines 41-50): only a strictly higher ballot
updates the promise and (if no entry, or a lower stored ballot) stores
`(ballot_num, proposal)` at the slot; the reply is
`Accepted(slot, ballot_num)` where `ballot_num` is the *incoming* ballot of
the Accept message (line 49), not `self.ballot_num`. -/
def Acceptor.do_Accept (st : AcceptorState) (ballot_num : Ballot) (slot : Nat)
    (proposal : Proposal) : AcceptorState × AMsg :=
  let st1 :=
    if Ballot.lt st.ballot_num ballot_num then
      let acc := st.accepted_proposals
      let store :=
        match dictGet acc slot with
        | none => true
        | some e => decide (Ballot.lt e.1 ballot_num)
      { st with
        ballot_num := ballot_num,
        accepted_proposals := if store then dictSet acc slot (ballot_num, proposal) else acc }
    else st
  (st1, AMsg.Accepted slot ballot_num)

/-- The messages an Acceptor can handle, for reasoning about message
sequences (sender of a Prepare matters only for the `Accepting` reply). -/
inductive AcceptorIn
  | prepare (sender : Addr) (ballot_num : Ballot)
  | accept (ballot_num : Ballot) (slot : Nat) (proposal : Proposal)
deriving DecidableEq, Repr

/-- One handled message, projected to the state change. -/
def acceptorStep (st : AcceptorState) (m : AcceptorIn) : AcceptorState :=
  match m with
  | .prepare sender b => (Acceptor.do_Prepare st sender b).1
  | .accept b slot p => (Acceptor.do_Accept st b slot p).1

/-- A demonstration proposal used in concrete evaluations. -/
def pDemo : Proposal := ⟨some 7, 1, 5⟩

theorem Ballot.le_refl (a : Ballot) : Ballot.le a a := Or.inl rfl

theorem Ballot.lt_trans' {a b c : Ballot} (h1 : Ballot.lt a b) (h2 : Ballot.lt b c) :
    Ballot.lt a c := by
  unfold Ballot.lt at h1 h2 ⊢
  rcases h1 with h1 | ⟨e1, h1⟩
  · rcases h2 with h2 | ⟨e2, h2⟩
    · exact Or.inl (by omega)
    · exact Or.inl (by omega)
  · rcases h2 with h2 | ⟨e2, h2⟩
    · exact Or.inl (by omega)
    · exact Or.inr ⟨by omega, Nat.lt_trans h1 h2⟩

theorem Ballot.le_trans' {a b c : Ballot} (h1 : Ballot.le a b) (h2 : Ballot.le b c) :
    Ballot.le a c := by
  rcases h1 with rfl | h1
  · exact h2
  · rcases h2 with rfl | h2
    · exact Or.inr h1
    · exact Or.inr (Ballot.lt_trans' h1 h2)

/-- Each single handled message leaves the promise ballot equal or larger. -/
theorem acceptorStep_ballot_le (st : AcceptorState) (m : AcceptorIn) :
    Ballot.le st.ballot_num (acceptorStep st m).ballot_num := by
  cases m with
  | prepare sender b =>
    simp only [acceptorStep, Acceptor.do_Prepare]
    split
    · next h => exact Or.inr h
    · exact Ballot.le_refl _
  | accept b slot p =>
    simp only [acceptorStep, Acceptor.do_Accept]
    split
    · next h => exact Or.inr h
    · exact Ballot.le_refl _

/-- C6: the Acceptor's promise ballot is non-decreasing over any sequence of
handled Prepare and Accept messages: `do_Prepare` and `do_Accept` each update
`ballot_num` only to a strictly greater ballot, never to a smaller one. -/
theorem acceptor_ballot_monotone (msgs : List AcceptorIn) (st : AcceptorState) :
    Ballot.le st.ballot_num (List.foldl acceptorStep st msgs).ballot_num := by
  induction msgs generalizing st with
  | nil => exact Ballot.le_refl _
  | cons m t ih =>
    exact Ballot.le_trans' (acceptorStep_ballot_le st m) (ih (acceptorStep st m))

/-- C1 (code evaluation at the failing input): an Acceptor whose promise is
ballot (5, 1) handles `Accept(ballot=(3, 2), slot=0, pDemo)`; the reply
carries the incoming ballot (3, 2), which differs from the current promise
(5, 1) that the spec requires, so the sending Commander — which compares the
replied ballot against its own (3, 2) — cannot detect that it was preempted. -/
theorem acceptor_accepted_reply_echoes_ballot :
    (Acceptor.do_Accept ⟨⟨5, 1⟩, []⟩ ⟨3, 2⟩ 0 pDemo).2 = AMsg.Accepted 0 ⟨3, 2⟩ ∧
    (Acceptor.do_Accept ⟨⟨5, 1⟩, []⟩ ⟨3, 2⟩ 0 pDemo).1.ballot_num = ⟨5, 1⟩ ∧
    (⟨3, 2⟩ : Ballot) ≠ ⟨5, 1⟩ := by
  refine ⟨rfl, rfl, by decide⟩

/-- C5 (counterexample): an Accept whose ballot exactly equals the current
promise (2, 1) stores nothing — the acceptor state is completely unchanged —
because `do_Accept` guards the store with the strict `ballot_num >
self.ballot_num`; the claim says equality also results in storage. -/
theorem acceptor_accept_equal_ballot_no_store :
    (Acceptor.do_Accept ⟨⟨2, 1⟩, []⟩ ⟨2, 1⟩ 0 pDemo).1 = ⟨⟨2, 1⟩, []⟩ ∧
    dictGet (Acceptor.do_Accept ⟨⟨2, 1⟩, []⟩ ⟨2, 1⟩ 0 pDemo).1.accepted_proposals 0 = none := by
  refine ⟨by decide, by decide⟩

theorem dictGet_dictSet_self {α : Type} (d : List (Nat × α)) (k : Nat) (v : α) :
    dictGet (dictSet d k v) k = some v := by
  induction d with
  | nil => simp [dictGet, dictSet]
  | cons e t ih =>
    by_cases h : e.1 = k
    · simp [dictGet, dictSet, h]
    · simp [dictGet, dictSet, h, ih]

/-- C5 (amended): storage happens exactly under the code's strict guard — if
the Accept's ballot is strictly greater than the current promise and the slot
has no stored entry or a strictly lower stored ballot, then `(ballot,
proposal)` is stored at the slot and the promise becomes that ballot. -/
theorem acceptor_accept_stores_above_promise (st : AcceptorState) (b : Ballot)
    (slot : Nat) (p : Proposal)
    (hgt : Ballot.lt st.ballot_num b)
    (hcond : dictGet st.accepted_proposals slot = none ∨
      ∃ e, dictGet st.accepted_proposals slot = some e ∧ Ballot.lt e.1 b) :
    dictGet (Acceptor.do_Accept st b slot p).1.accepted_proposals slot = some (b, p) ∧
    (Acceptor.do_Accept st b slot p).1.ballot_num = b := by
  unfold Acceptor.do_Accept
  rw [if_pos hgt]
  rcases hcond with hnone | ⟨e, hsome, hlt⟩
  · simp [hnone, dictGet_dictSet_self]
  · simp [hsome, hlt, dictGet_dictSet_self]

/-- C5 amended, witnessed at a concrete input: promise (1, 1), Accept at
ballot (2, 1) on an empty accepted map stores the proposal at slot 0. -/
theorem acceptor_accept_stores_above_promise_witness :
    Ballot.lt (⟨1, 1⟩ : Ballot) ⟨2, 1⟩ ∧
    dictGet (Acceptor.do_Accept ⟨⟨1, 1⟩, []⟩ ⟨2, 1⟩ 0 pDemo).1.accepted_proposals 0 =
      some (⟨2, 1⟩, pDemo) := by
  refine ⟨by decide, ?_⟩
  exact (acceptor_accept_stores_above_promise ⟨⟨1, 1⟩, []⟩ ⟨2, 1⟩ 0 pDemo
    (by decide) (Or.inl (by decide))).1

/-- Effects a Leader handler can have beyond its own state: spawning a Scout
or a Commander sub-role. -/
inductive LeaderEffect
  | spawnScout (ballot_num : Ballot)
  | spawnCommander (ballot_num : Ballot) (slot : Nat) (proposal : Proposal)
deriving DecidableEq, Repr

/-- `Leader` state (role.py lines 246-254): current ballot, active flag,
`{slot: proposal}` map and scouting flag. -/
structure LeaderState where
  ballot_num : Ballot
  active : Bool
  proposals : List (Nat × Proposal)
  scouting : Bool
deriving DecidableEq, Repr

/-- `Leader.__init__` for a node with the given address: ballot (0, own
identity), inactive, empty proposals, not scouting. -/
def Leader.init (address : Addr) : LeaderState :=
  { ballot_num := ⟨0, address⟩, active := false, proposals := [], scouting := false }

/-- `Leader.spawn_scout` (role.py lines 264-267): assert not scouting, set the
flag and construct a Scout with the current ballot.  `none` models the
`assert` failing. -/
def Leader.spawn_scout (st : LeaderState) : Option (LeaderState × List LeaderEffect) :=
  if st.scouting then none
  else some ({ st with scouting := true }, [LeaderEffect.spawnScout st.ballot_num])

/-- `Leader.spawn_commander` (role.py lines 276-278): read
`self.proposals[slot]` and construct a Commander for it (`[]` would be the
`KeyError`; unreachable from `do_Propose`, which stores the slot first). -/
def Leader.spawn_commander (st : LeaderState) (ballot_num : Ballot) (slot : Nat) :
    List LeaderEffect :=
  match dictGet st.proposals slot with
  | some proposal => [LeaderEffect.spawnCommander ballot_num slot proposal]
  | none => []

/-- `Leader.do_Propose` (role.py lines 287-299): a slot already in the
proposals map is ignored; an active leader records the proposal and spawns a
Commander; an inactive leader only writes a log line — in both the
non-scouting and the scouting branch the source logs and does nothing else
(`spawn_scout` is never called). -/
def Leader.do_Propose (st : LeaderState) (slot : Nat) (proposal : Proposal) :
    LeaderState × List LeaderEffect :=
  if ¬ dictHas st.proposals slot then
    if st.active then
      let st1 := { st with proposals := dictSet st.proposals slot proposal }
      (st1, Leader.spawn_commander st1 st.ballot_num slot)
    else
      (st, [])
  else (st, [])

/-- `Leader.do_Preempted` (role.py lines 280-285): `if not slot:` clears the
scouting flag — Python falsiness makes this trigger both for `None` (Scout
origin) and for slot `0`; the leader goes inactive and advances its ballot to
`(preempted_by.n + 1, own leader identity)` (a `Ballot` namedtuple is always
truthy, so `preempted_by or self.ballot_num` is `preempted_by`). -/
def Leader.do_Preempted (st : LeaderState) (slot : Option Nat) (preempted_by : Ballot) :
    LeaderState :=
  let scouting1 :=
    match slot with
    | none => false
    | some 0 => false
    | some (_ + 1) => st.scouting
  { st with scouting := scouting1, active := false,
            ballot_num := ⟨preempted_by.n + 1, st.ballot_num.leader⟩ }

/-- `Scout` attribute state as `__init__` (role.py lines 159-166) leaves it:
`self.ballet_num` (note the typo) holds the constructor's ballot, while the
attribute named `ballot_num` is never assigned — reading it raises
`AttributeError`, modelled by the `Option` being `none`. -/
structure ScoutState where
  ballet_num : Option Ballot
  ballot_num : Option Ballot
  accepted_proposals : List (Nat × Ballot × Proposal)
  acceptors : List Addr
  peers : List Addr
  quorum : Nat
deriving DecidableEq, Repr

/-- `Scout.__init__` (role.py lines 159-166): assigns `self.ballet_num`,
never `self.ballot_num`. -/
def Scout.init (ballot_num : Ballot) (peers : List Addr) : ScoutState :=
  { ballet_num := some ballot_num, ballot_num := none,
    accepted_proposals := [], acceptors := [], peers := peers,
    quorum := peers.length / 2 + 1 }

/-- `Scout.send_prepare` (role.py lines 172-174): reads `self.ballot_num` to
build `Prepare(ballot_num=...)` for all peers (the retransmission timer is
scheduled after the send).  The read raises `AttributeError` when the
attribute was never assigned. -/
def Scout.send_prepare (s : ScoutState) : Except String (List Addr × Ballot) :=
  match s.ballot_num with
  | some b => Except.ok (s.peers, b)
  | none => Except.error "AttributeError: ballot_num"

/-- `Scout.start` (role.py lines 168-170): log, then `send_prepare`. -/
def Scout.start (s : ScoutState) : Except String (List Addr × Ballot) :=
  Scout.send_prepare s

/-- C3 (code evaluation at the failing input): starting a Scout constructed
with ballot (0, 1) and peers [1, 2, 3] raises `AttributeError` instead of
broadcasting `Prepare`: `__init__` stores the ballot under the misspelled
attribute `ballet_num`, and `send_prepare` reads `ballot_num`, which is
undefined at that point. -/
theorem scout_start_attribute_error :
    Scout.start (Scout.init ⟨0, 1⟩ [1, 2, 3]) = Except.error "AttributeError: ballot_num" ∧
    (Scout.init ⟨0, 1⟩ [1, 2, 3]).ballet_num = some ⟨0, 1⟩ := by
  exact ⟨rfl, rfl⟩

/-- C2 (code evaluation at the failing input): a Leader that is inactive and
not scouting, handling `Propose(slot=3, pDemo)` for a slot absent from its
proposals map, is returned completely unchanged with no spawned sub-role: the
`else` branch of `do_Propose` only logs, and `spawn_scout` is never invoked
(the scouting flag stays false, and no `spawnScout` effect is produced). -/
theorem leader_propose_inactive_spawns_nothing :
    Leader.do_Propose (Leader.init 1) 3 pDemo = (Leader.init 1, []) ∧
    (Leader.init 1).active = false ∧ (Leader.init 1).scouting = false ∧
    dictGet (Leader.init 1).proposals 3 = none := by
  exact ⟨rfl, rfl, rfl, rfl⟩

/-- A concrete Leader mid-scout, for the C8 counterexample. -/
def leaderScouting : LeaderState :=
  { ballot_num := ⟨0, 1⟩, active := false, proposals := [], scouting := true }

/-- C8 (counterexample): a scouting Leader that handles
`Preempted(slot=0, preempted_by=(3, 2))` — a Commander origin, since the slot
is present — has its scouting flag cleared, contradicting the claim that a
Preempted from a Commander leaves the scouting flag unchanged for any slot
including 0: `if not slot:` treats slot 0 like the Scout's `None`. -/
theorem leader_preempted_slot_zero_clears_scouting :
    (Leader.do_Preempted leaderScouting (some 0) ⟨3, 2⟩).scouting = false ∧
    leaderScouting.scouting = true := by
  exact ⟨rfl, rfl⟩

/-- C8 (amended): `do_Preempted` clears the scouting flag exactly when the
slot is absent (Scout origin) or equal to 0 (Python falsiness of `not slot`);
in all cases it clears the active flag and advances the current ballot to
`(preempted_by.round + 1, own leader identity)` — the leader component of its
own current ballot, which is the node's own address. -/
theorem leader_preempted_spec (st : LeaderState) (slot : Option Nat) (pb : Ballot) :
    (Leader.do_Preempted st slot pb).scouting =
      (if slot = none ∨ slot = some 0 then false else st.scouting) ∧
    (Leader.do_Preempted st slot pb).active = false ∧
    (Leader.do_Preempted st slot pb).ballot_num = ⟨pb.n + 1, st.ballot_num.leader⟩ := by
  refine ⟨?_, rfl, rfl⟩
  rcases slot with _ | (_ | k) <;> simp [Leader.do_Preempted]

/-- Messages a Replica emits. -/
inductive OutMsg
  | Propose (dest : Addr) (slot : Nat) (proposal : Proposal)
  | Invoked (dest : Addr) (client_id : Int) (output : Int)
deriving DecidableEq, Repr

/-- `Replica` state (role.py lines 57-69): applied state, next slot to
commit (`self.slot`), decisions `{slot: proposal}`, peers, this replica's
outstanding proposals `{slot: proposal}`, next proposal slot, the leader it
believes in, and the node's own address (`self.node.address`).  The applied
state and the external `execute_fn` operate on integers; `execute_fn` is
passed to the handlers that commit. -/
structure ReplicaState where
  state : Int
  slot : Nat
  decisions : List (Nat × Proposal)
  peers : List Addr
  proposals : List (Nat × Proposal)
  next_slot : Nat
  latest_leader : Option Addr
  address : Addr
deriving DecidableEq, Repr

/-- `Replica.propose` (role.py lines 78-87): `if not slot:` allocates a fresh
slot — by Python falsiness this triggers both when no slot was passed
(`None`) and when the passed slot is `0`; record the proposal and send
`Propose` to `self.latest_leader or self.node.address` (addresses are
non-empty strings, so `or` only tests for `None`). -/
def Replica.propose (st : ReplicaState) (proposal : Proposal) (slot : Option Nat) :
    ReplicaState × List OutMsg :=
  let alloc :=
    match slot with
    | none => true
    | some 0 => true
    | some (_ + 1) => false
  let s := if alloc then st.next_slot else slot.getD 0
  let st1 := if alloc then { st with next_slot := st.next_slot + 1 } else st
  let st2 := { st1 with proposals := dictSet st1.proposals s proposal }
  let leader := st2.latest_leader.getD st2.address
  (st2, [OutMsg.Propose leader s proposal])

/-- The generator expression of `do_Invoke` (role.py line 74):
`next((s for s, p in self.proposals.items() if p == proposal), None)` — the
first slot, in insertion order, whose proposal equals the given one. -/
def findSlot (d : List (Nat × Proposal)) (proposal : Proposal) : Option Nat :=
  match d with
  | [] => none
  | e :: t => if e.2 = proposal then some e.1 else findSlot t proposal

/-- `Replica.do_Invoke` (role.py lines 72-76): build the proposal, look for
an existing slot with a structurally equal proposal (first match in the
dict's insertion order), then `propose` (re-propose when a slot was found). -/
def Replica.do_Invoke (st : ReplicaState) (caller : Option Addr) (client_id : Int)
    (input : Int) : ReplicaState × List OutMsg :=
  let proposal : Proposal := ⟨caller, client_id, input⟩
  let slot := findSlot st.proposals proposal
  Replica.propose st proposal slot

/-- How a Replica handler can abort (an uncaught exception). -/
inductive ReplicaErr
  | slotAlreadyDecided
  | conflictingDecision
  | valueErr
deriving DecidableEq, Repr

/-- `Replica.commit` (role.py lines 111-122): skip a proposal equal to one
decided at an earlier slot (duplicate suppression); otherwise, for a
non-no-op proposal, run `execute_fn` and send `Invoked` to the caller.
Only the applied state changes. -/
def Replica.commit (exec : Int → Int → Int × Int) (st : ReplicaState) (slot : Nat)
    (proposal : Proposal) : ReplicaState × List OutMsg :=
  let decided_proposals :=
    (st.decisions.filter (fun e => decide (e.1 < slot))).map (fun e => e.2)
  if proposal ∈ decided_proposals then (st, [])
  else
    match proposal.caller with
    | some caller =>
      let out := exec st.state proposal.input
      ({ st with state := out.1 }, [OutMsg.Invoked caller proposal.client_id out.2])
    | none => (st, [])

/-- The `while True` drain loop of `do_Decision` (role.py lines 104-109),
with explicit fuel: while a decision exists at `self.slot` (a `Proposal`
namedtuple is always truthy, so `if not commit_proposal` is exactly the
`None` test), advance `self.slot` and commit the old slot.  `do_Decision`
passes fuel for which `drain_commit_slot_undecided` shows the loop reaches
its natural exit, so the fuel never cuts the loop short. -/
def Replica.drain (exec : Int → Int → Int × Int) :
    Nat → ReplicaState → List OutMsg → ReplicaState × List OutMsg
  | 0, st, ms => (st, ms)
  | fuel + 1, st, ms =>
    match dictGet st.decisions st.slot with
    | none => (st, ms)
    | some commit_proposal =>
      let st1 := { st with slot := st.slot + 1 }
      let r := Replica.commit exec st1 st.slot commit_proposal
      Replica.drain exec fuel r.1 (ms ++ r.2)

/-- `Replica.do_Decision` (role.py lines 90-109):
1. `assert not self.decisions.get(self.slot, None)` — aborts when the next
   slot to commit is already decided;
2. a slot already decided must carry an equal proposal (the failing assert
   aborts; its message formatting even raises `TypeError` via
   `self.decisions(slot)`, aborting either way), else return unchanged;
3. record the decision, bump `next_slot`;
4. re-propose our proposal for that slot if it lost its slot and is not a
   no-op (`our_proposal.caller` truthy);
5. drain: commit all contiguously decided slots. -/
def Replica.do_Decision (exec : Int → Int → Int × Int) (st : ReplicaState)
    (slot : Nat) (proposal : Proposal) : Except ReplicaErr (ReplicaState × List OutMsg) :=
  if dictHas st.decisions st.slot then Except.error ReplicaErr.slotAlreadyDecided
  else if dictHas st.decisions slot then
    if dictGet st.decisions slot = some proposal then Except.ok (st, [])
    else Except.error ReplicaErr.conflictingDecision
  else
    let st1 := { st with decisions := dictSet st.decisions slot proposal,
                         next_slot := max st.next_slot (slot + 1) }
    let r2 :=
      match dictGet st1.proposals slot with
      | some our_proposal =>
        if our_proposal ≠ proposal ∧ our_proposal.caller.isSome then
          Replica.propose st1 our_proposal none
        else (st1, [])
      | none => (st1, [])
    Except.ok (Replica.drain exec r2.1.decisions.length r2.1 r2.2)

/-- The body of `reset_leader` (role.py lines 143-146): find the index of
`latest_leader` in the peer list (`list.index` raises `ValueError` when
absent, modelled by `none`) and rotate to the next peer cyclically. -/
def Replica.reset_leader (st : ReplicaState) : Option ReplicaState :=
  match st.peers.findIdx? (fun a => some a = st.latest_leader) with
  | none => none
  | some idx =>
    some { st with latest_leader := some (st.peers.getD ((idx + 1) % st.peers.length) 0) }

/-- `Replica.leader_alive` (role.py lines 139-147): cancel the pending timer,
then `self.set_timer(LEADER_TIMEOUT, reset_leader())` — the source CALLS
`reset_leader` and passes its result (`None`) as the callback, so the
rotation happens synchronously here and the scheduled "callback" is `None`. -/
def Replica.leader_alive (st : ReplicaState) : Option ReplicaState :=
  Replica.reset_leader st

/-- `Replica.do_Accepting` (role.py lines 130-132): set `latest_leader` to
the message's leader, then `leader_alive`. -/
def Replica.do_Accepting (st : ReplicaState) (leader : Addr) : Option ReplicaState :=
  Replica.leader_alive { st with latest_leader := some leader }

/-- `Replica.do_Adopted` (role.py lines 126-128): set `latest_leader` to the
own address, then `leader_alive`. -/
def Replica.do_Adopted (st : ReplicaState) : Option ReplicaState :=
  Replica.leader_alive { st with latest_leader := some st.address }

/-- `Replica.do_Active` (role.py lines 134-137): ignore unless the sender is
the current `latest_leader`; otherwise `leader_alive`. -/
def Replica.do_Active (st : ReplicaState) (sender : Addr) : Option ReplicaState :=
  if some sender ≠ st.latest_leader then some st
  else Replica.leader_alive st

/-- The inbound events of a Replica that change its state, for reasoning
about reachable states (Join only sends a reply and is omitted). -/
inductive ReplicaEvent
  | invoke (caller : Option Addr) (client_id : Int) (input : Int)
  | decision (slot : Nat) (proposal : Proposal)
  | accepting (leader : Addr)
  | adopted
  | active (sender : Addr)
deriving DecidableEq, Repr

/-- One handled event, projected to the state change; an uncaught exception
aborts with the corresponding error. -/
def Replica.step (exec : Int → Int → Int × Int) (st : ReplicaState) :
    ReplicaEvent → Except ReplicaErr ReplicaState
  | .invoke caller client_id input =>
    Except.ok (Replica.do_Invoke st caller client_id input).1
  | .decision slot proposal =>
    (Replica.do_Decision exec st slot proposal).map (fun r => r.1)
  | .accepting leader =>
    match Replica.do_Accepting st leader with
    | some st1 => Except.ok st1
    | none => Except.error ReplicaErr.valueErr
  | .adopted =>
    match Replica.do_Adopted st with
    | some st1 => Except.ok st1
    | none => Except.error ReplicaErr.valueErr
  | .active sender =>
    match Replica.do_Active st sender with
    | some st1 => Except.ok st1
    | none => Except.error ReplicaErr.valueErr

/-- A Replica handling a sequence of events, stopping at the first uncaught
exception. -/
def Replica.run (exec : Int → Int → Int × Int) (st : ReplicaState) :
    List ReplicaEvent → Except ReplicaErr ReplicaState
  | [] => Except.ok st
  | e :: es =>
    match Replica.step exec st e with
    | Except.ok st1 => Replica.run exec st1 es
    | Except.error err => Except.error err

/-- A concrete demonstration replica: node 1 of peers [1, 2, 3]. -/
def replicaDemo : ReplicaState :=
  { state := 0, slot := 0, decisions := [], peers := [1, 2, 3], proposals := [],
    next_slot := 0, latest_leader := none, address := 1 }

/-- C4 (code evaluation at the failing input): after `do_Accepting(leader=1)`
on a replica with peers [1, 2, 3], `latest_leader` is peer 2, not the leader 1
carried by the message — `leader_alive` calls `reset_leader()` eagerly
(passing its `None` result to `set_timer`), so the rotation to the next peer
happens synchronously inside the Accepting handler instead of on timer
expiry. -/
theorem replica_accepting_rotates_latest_leader :
    Replica.do_Accepting replicaDemo 1 = some { replicaDemo with latest_leader := some 2 } ∧
    (2 : Addr) ≠ 1 := by
  exact ⟨rfl, by decide⟩

/-- A replica whose proposal map holds `pDemo` at slot 0, for C7. -/
def replicaSlot0 : ReplicaState :=
  { state := 0, slot := 0, decisions := [], peers := [1, 2, 3],
    proposals := [(0, pDemo)], next_slot := 3, latest_leader := none, address := 1 }

/-- C7 (counterexample): `pDemo` is already proposed at slot 0, yet the
Invoke allocates the fresh slot 3 (incrementing `next_slot` from 3 to 4 and
sending `Propose(slot=3, ...)`) instead of re-proposing at slot s = 0 with
`next_slot` unchanged: `propose`'s `if not slot:` treats the found slot 0 as
"no slot". -/
theorem replica_invoke_slot_zero_allocates_fresh :
    findSlot replicaSlot0.proposals pDemo = some 0 ∧
    (Replica.do_Invoke replicaSlot0 (some 7) 1 5).1.next_slot = 4 ∧
    (Replica.do_Invoke replicaSlot0 (some 7) 1 5).2 = [OutMsg.Propose 1 3 pDemo] := by
  refine ⟨by decide, by decide, by decide⟩

/-- C7 (amended): on `Invoke(caller, client_id, input)`, if an identical
proposal is present at some slot s ≠ 0 (the first such slot in insertion
order), the Replica re-proposes at that same s — `next_slot` and every other
field unchanged, `proposals[s]` rewritten, and `Propose(s, proposal)` sent to
the latest leader (or itself) — while if no identical proposal exists, or it
sits only at slot 0 (which `if not slot:` treats as unset), it allocates
slot = `next_slot`, increments `next_slot`, records the proposal there and
sends `Propose` for the fresh slot. -/
theorem replica_invoke_spec (st : ReplicaState) (caller : Option Addr)
    (client_id input : Int) :
    (∀ s : Nat, findSlot st.proposals ⟨caller, client_id, input⟩ = some s → s ≠ 0 →
      Replica.do_Invoke st caller client_id input =
        ({ st with proposals := dictSet st.proposals s ⟨caller, client_id, input⟩ },
         [OutMsg.Propose (st.latest_leader.getD st.address) s ⟨caller, client_id, input⟩])) ∧
    ((findSlot st.proposals ⟨caller, client_id, input⟩ = none ∨
      findSlot st.proposals ⟨caller, client_id, input⟩ = some 0) →
      Replica.do_Invoke st caller client_id input =
        ({ st with next_slot := st.next_slot + 1,
                   proposals := dictSet st.proposals st.next_slot ⟨caller, client_id, input⟩ },
         [OutMsg.Propose (st.latest_leader.getD st.address) st.next_slot
            ⟨caller, client_id, input⟩])) := by
  constructor
  · intro s hf hs
    cases s with
    | zero => exact absurd rfl hs
    | succ k =>
      simp [Replica.do_Invoke, Replica.propose, hf]
  · intro hf
    rcases hf with hf | hf <;> simp [Replica.do_Invoke, Replica.propose, hf]

/-- A replica whose proposal map holds `pDemo` at slot 2, for the C7
witness. -/
def replicaRepro : ReplicaState :=
  { state := 0, slot := 0, decisions := [], peers := [1, 2, 3],
    proposals := [(2, pDemo)], next_slot := 5, latest_leader := none, address := 1 }

/-- C7 amended, witnessed at concrete inputs: with `pDemo` at slot 2, the
Invoke re-proposes at slot 2 and leaves `next_slot` at 5; on `replicaDemo`
(no matching proposal), it allocates the fresh slot 0. -/
theorem replica_invoke_spec_witness :
    (findSlot replicaRepro.proposals pDemo = some 2 ∧
      Replica.do_Invoke replicaRepro (some 7) 1 5 =
        ({ replicaRepro with proposals := dictSet replicaRepro.proposals 2 pDemo },
         [OutMsg.Propose 1 2 pDemo])) ∧
    Replica.do_Invoke replicaDemo (some 7) 1 5 =
      ({ replicaDemo with next_slot := 1,
                          proposals := dictSet replicaDemo.proposals 0 pDemo },
       [OutMsg.Propose 1 0 pDemo]) := by
  refine ⟨⟨by decide, ?_⟩, ?_⟩
  · exact (replica_invoke_spec replicaRepro (some 7) 1 5).1 2 (by decide) (by decide)
  · exact (replica_invoke_spec replicaDemo (some 7) 1 5).2 (Or.inl (by decide))

/-- C9: for a `Decision(slot, proposal)` on a slot already decided — given
the handler's entry assertion holds (no decision at the next commit slot) —
an equal stored proposal makes `do_Decision` return with the replica state
completely unchanged and nothing sent, while a different stored proposal
makes it abort (the failing `assert` raises; its diagnostic even raises
`TypeError` through `self.decisions(slot)`, aborting either way). -/
theorem replica_decision_duplicate (exec : Int → Int → Int × Int) (st : ReplicaState)
    (slot : Nat) (p q : Proposal)
    (hinv : dictGet st.decisions st.slot = none)
    (hq : dictGet st.decisions slot = some q) :
    (q = p → Replica.do_Decision exec st slot p = Except.ok (st, [])) ∧
    (q ≠ p → Replica.do_Decision exec st slot p =
      Except.error ReplicaErr.conflictingDecision) := by
  have h1 : dictHas st.decisions st.slot = false := by
    simp [dictHas, hinv]
  have h2 : dictHas st.decisions slot = true := by
    simp [dictHas, hq]
  constructor
  · intro he
    subst he
    simp [Replica.do_Decision, h1, h2, hq]
  · intro hne
    have : ¬ dictGet st.decisions slot = some p := by
      rw [hq]
      intro hc
      exact hne (Option.some.inj hc)
    simp [Replica.do_Decision, h1, h2, this]

/-- The spec's example application function: `execute(state, x) =
(state + x, state + x)`, for concrete witnesses. -/
def execAdd : Int → Int → Int × Int := fun s x => (s + x, s + x)

/-- A second demonstration proposal, different from `pDemo`. -/
def pOther : Proposal := ⟨some 8, 2, 6⟩

/-- A replica that has decided `pDemo` at slot 3 while its commit slot 0 is
undecided, for the C9 witness. -/
def replicaDup : ReplicaState :=
  { state := 0, slot := 0, decisions := [(3, pDemo)], peers := [1, 2, 3],
    proposals := [], next_slot := 4, latest_leader := none, address := 1 }

/-- C9, witnessed at a concrete input: a duplicate `Decision(3, pDemo)` is a
no-op on `replicaDup`, and a conflicting `Decision(3, pOther)` aborts. -/
theorem replica_decision_duplicate_witness :
    Replica.do_Decision execAdd replicaDup 3 pDemo = Except.ok (replicaDup, []) ∧
    Replica.do_Decision execAdd replicaDup 3 pOther =
      Except.error ReplicaErr.conflictingDecision := by
  constructor
  · exact (replica_decision_duplicate execAdd replicaDup 3 pDemo pDemo
      (by decide) (by decide)).1 rfl
  · exact (replica_decision_duplicate execAdd replicaDup 3 pOther pDemo
      (by decide) (by decide)).2 (by decide)

/-- The number of dict entries whose key is at least `s` — the decisions the
drain loop can still consume from commit slot `s` on. -/
def countGe {α : Type} (s : Nat) (l : List (Nat × α)) : Nat :=
  match l with
  | [] => 0
  | e :: t => (if s ≤ e.1 then 1 else 0) + countGe s t

theorem countGe_le_length {α : Type} (s : Nat) (l : List (Nat × α)) :
    countGe s l ≤ l.length := by
  induction l with
  | nil => simp [countGe]
  | cons e t ih =>
    simp only [countGe, List.length_cons]
    split <;> omega

theorem countGe_succ_le {α : Type} (s : Nat) (l : List (Nat × α)) :
    countGe (s + 1) l ≤ countGe s l := by
  induction l with
  | nil => simp [countGe]
  | cons e t ih =>
    simp only [countGe]
    by_cases h1 : s + 1 ≤ e.1
    · rw [if_pos h1, if_pos (by omega)]
      omega
    · rw [if_neg h1]
      split <;> omega

/-- A dict entry at key `s` makes the count of entries with key ≥ s strictly
larger than the count with key ≥ s + 1. -/
theorem dictGet_some_countGe_lt {α : Type} (l : List (Nat × α)) (s : Nat) (v : α)
    (h : dictGet l s = some v) :
    countGe (s + 1) l < countGe s l := by
  induction l with
  | nil => simp [dictGet] at h
  | cons e t ih =>
    simp only [countGe]
    by_cases he : e.1 = s
    · rw [if_neg (by omega), if_pos (by omega)]
      have := countGe_succ_le s t
      omega
    · have h' : dictGet t s = some v := by
        simpa [dictGet, he] using h
      have := ih h'
      split <;> split <;> omega

/-- `commit` changes only the applied state: decisions and the commit slot
are untouched. -/
theorem commit_preserves (exec : Int → Int → Int × Int) (st : ReplicaState)
    (s : Nat) (p : Proposal) :
    (Replica.commit exec st s p).1.decisions = st.decisions ∧
    (Replica.commit exec st s p).1.slot = st.slot := by
  by_cases hmem : p ∈ (st.decisions.filter (fun e => decide (e.1 < s))).map (fun e => e.2)
  · simp [Replica.commit, hmem]
  · rcases hp : p.caller with _ | c <;> simp [Replica.commit, hmem, hp]

/-- `propose` changes only `next_slot` and `proposals`: decisions and the
commit slot are untouched. -/
theorem propose_preserves (st : ReplicaState) (p : Proposal) (o : Option Nat) :
    (Replica.propose st p o).1.decisions = st.decisions ∧
    (Replica.propose st p o).1.slot = st.slot := by
  unfold Replica.propose
  rcases o with _ | (_ | k) <;> exact ⟨rfl, rfl⟩

/-- With enough fuel (at least the number of decisions at or above the
current commit slot), the drain loop exits only at its natural exit: the
final state has no decision at its commit slot. -/
theorem drain_commit_slot_undecided (exec : Int → Int → Int × Int) :
    ∀ (fuel : Nat) (st : ReplicaState) (ms : List OutMsg),
      countGe st.slot st.decisions ≤ fuel →
      dictGet (Replica.drain exec fuel st ms).1.decisions
        (Replica.drain exec fuel st ms).1.slot = none := by
  intro fuel
  induction fuel with
  | zero =>
    intro st ms h
    cases hg : dictGet st.decisions st.slot with
    | none => simpa [Replica.drain] using hg
    | some v =>
      have := dictGet_some_countGe_lt st.decisions st.slot v hg
      omega
  | succ n ih =>
    intro st ms h
    cases hg : dictGet st.decisions st.slot with
    | none =>
      simp [Replica.drain, hg]
    | some v =>
      have hstep : Replica.drain exec (n + 1) st ms =
          Replica.drain exec n
            (Replica.commit exec { st with slot := st.slot + 1 } st.slot v).1
            (ms ++ (Replica.commit exec { st with slot := st.slot + 1 } st.slot v).2) := by
        simp [Replica.drain, hg]
      rw [hstep]
      apply ih
      have hp := commit_preserves exec { st with slot := st.slot + 1 } st.slot v
      rw [hp.1, hp.2]
      dsimp only
      have hlt := dictGet_some_countGe_lt st.decisions st.slot v hg
      omega

/-- Under the entry invariant (no decision at the commit slot), `do_Decision`
never fails its entry assertion, and when it returns normally the invariant
holds again: the drain loop has advanced the commit slot past every
contiguously decided slot. -/
theorem do_Decision_undecided (exec : Int → Int → Int × Int) (st : ReplicaState)
    (s : Nat) (p : Proposal)
    (h : dictGet st.decisions st.slot = none) :
    Replica.do_Decision exec st s p ≠ Except.error ReplicaErr.slotAlreadyDecided ∧
    ∀ r, Replica.do_Decision exec st s p = Except.ok r →
      dictGet r.1.decisions r.1.slot = none := by
  have h1 : ¬ dictHas st.decisions st.slot = true := by simp [dictHas, h]
  by_cases h2 : dictHas st.decisions s = true
  · by_cases h3 : dictGet st.decisions s = some p
    · constructor
      · simp [Replica.do_Decision, h1, h2, h3]
      · intro r hok
        rw [Replica.do_Decision, if_neg h1, if_pos h2, if_pos h3] at hok
        have h4 := Except.ok.inj hok
        rw [← h4]
        exact h
    · constructor
      · simp [Replica.do_Decision, h1, h2, h3]
      · intro r hok
        rw [Replica.do_Decision, if_neg h1, if_pos h2, if_neg h3] at hok
        exact absurd hok (by simp)
  · constructor
    · rw [Replica.do_Decision, if_neg h1, if_neg h2]
      intro hc
      exact Except.noConfusion hc
    · intro r hok
      rw [Replica.do_Decision, if_neg h1, if_neg h2] at hok
      have h4 := Except.ok.inj hok
      rw [← h4]
      exact drain_commit_slot_undecided exec _ _ _ (countGe_le_length _ _)

/-- `reset_leader` changes only `latest_leader`. -/
theorem reset_leader_preserves (st st1 : ReplicaState)
    (h : Replica.reset_leader st = some st1) :
    st1.decisions = st.decisions ∧ st1.slot = st.slot := by
  unfold Replica.reset_leader at h
  cases hf : st.peers.findIdx? (fun a => decide (some a = st.latest_leader)) with
  | none => rw [hf] at h; exact absurd h (by simp)
  | some idx =>
    rw [hf] at h
    have h4 := Option.some.inj h
    rw [← h4]
    exact ⟨rfl, rfl⟩

/-- Every Replica handler preserves the drain invariant, and only an aborting
`do_Decision` whose entry assertion was satisfied — or a `ValueError` from
the leader rotation — can stop a run: never the entry assertion itself. -/
theorem step_preserves_undecided (exec : Int → Int → Int × Int) (st : ReplicaState)
    (e : ReplicaEvent)
    (h : dictGet st.decisions st.slot = none) :
    Replica.step exec st e ≠ Except.error ReplicaErr.slotAlreadyDecided ∧
    ∀ st1, Replica.step exec st e = Except.ok st1 →
      dictGet st1.decisions st1.slot = none := by
  cases e with
  | invoke caller k i =>
    constructor
    · simp [Replica.step]
    · intro st1 h1
      have h2 : (Replica.do_Invoke st caller k i).1 = st1 := by
        simpa [Replica.step] using h1
      rw [← h2]
      have hp := propose_preserves st ⟨caller, k, i⟩
        (findSlot st.proposals ⟨caller, k, i⟩)
      rw [Replica.do_Invoke]
      rw [hp.1, hp.2]
      exact h
  | decision s p =>
    have hd := do_Decision_undecided exec st s p h
    constructor
    · intro hc
      simp only [Replica.step] at hc
      cases hdd : Replica.do_Decision exec st s p with
      | ok v => rw [hdd] at hc; exact absurd hc (by simp [Except.map])
      | error err =>
        rw [hdd] at hc
        simp [Except.map] at hc
        exact hd.1 (by rw [hdd, hc])
    · intro st1 h1
      simp only [Replica.step] at h1
      cases hdd : Replica.do_Decision exec st s p with
      | error err => rw [hdd] at h1; exact absurd h1 (by simp [Except.map])
      | ok v =>
        rw [hdd] at h1
        simp only [Except.map] at h1
        have h2 := Except.ok.inj h1
        rw [← h2]
        exact hd.2 v (by rw [hdd])
  | accepting l =>
    constructor
    · simp only [Replica.step]
      cases hr : Replica.do_Accepting st l with
      | some st2 => simp
      | none => simp
    · intro st1 h1
      simp only [Replica.step] at h1
      cases hr : Replica.do_Accepting st l with
      | none => rw [hr] at h1; exact absurd h1 (by simp)
      | some st2 =>
        rw [hr] at h1
        have h2 := Except.ok.inj h1
        have hp := reset_leader_preserves { st with latest_leader := some l } st2
          (by simpa [Replica.do_Accepting, Replica.leader_alive] using hr)
        rw [← h2, hp.1, hp.2]
        exact h
  | adopted =>
    constructor
    · simp only [Replica.step]
      cases hr : Replica.do_Adopted st with
      | some st2 => simp
      | none => simp
    · intro st1 h1
      simp only [Replica.step] at h1
      cases hr : Replica.do_Adopted st with
      | none => rw [hr] at h1; exact absurd h1 (by simp)
      | some st2 =>
        rw [hr] at h1
        have h2 := Except.ok.inj h1
        have hp := reset_leader_preserves { st with latest_leader := some st.address } st2
          (by simpa [Replica.do_Adopted, Replica.leader_alive] using hr)
        rw [← h2, hp.1, hp.2]
        exact h
  | active a =>
    constructor
    · simp only [Replica.step]
      cases hr : Replica.do_Active st a with
      | some st2 => simp
      | none => simp
    · intro st1 h1
      simp only [Replica.step] at h1
      cases hr : Replica.do_Active st a with
      | none => rw [hr] at h1; exact absurd h1 (by simp)
      | some st2 =>
        rw [hr] at h1
        have h2 := Except.ok.inj h1
        rw [← h2]
        by_cases hs : some a ≠ st.latest_leader
        · have h3 : st = st2 := by
            have := hr
            rw [Replica.do_Active, if_pos hs] at this
            exact Option.some.inj this
          rw [← h3]
          exact h
        · have hp := reset_leader_preserves st st2
            (by
              have := hr
              rw [Replica.do_Active, if_neg hs] at this
              simpa [Replica.leader_alive] using this)
          rw [hp.1, hp.2]
          exact h

/-- C10: for every Replica state satisfying the drain invariant — no decision
stored at the next commit slot, as any freshly bootstrapped replica does —
and every sequence of handled events (Invoke, Decision, Accepting, Adopted,
Active), the run never aborts on the Decision handler's entry assertion
`assert not self.decisions.get(self.slot)`: the drain loop always runs to
completion, re-establishing the invariant, and no other handler touches
`decisions` or the commit slot. -/
theorem replica_commit_slot_never_decided (exec : Int → Int → Int × Int)
    (events : List ReplicaEvent) :
    ∀ st : ReplicaState, dictGet st.decisions st.slot = none →
      Replica.run exec st events ≠ Except.error ReplicaErr.slotAlreadyDecided ∧
      ∀ stF, Replica.run exec st events = Except.ok stF →
        dictGet stF.decisions stF.slot = none := by
  induction events with
  | nil =>
    intro st hinv
    constructor
    · simp [Replica.run]
    · intro stF hF
      have h1 : st = stF := by simpa [Replica.run] using hF
      rw [← h1]
      exact hinv
  | cons e es ih =>
    intro st hinv
    obtain ⟨hne, hok⟩ := step_preserves_undecided exec st e hinv
    constructor
    · intro hc
      cases hs : Replica.step exec st e with
      | ok st1 =>
        rw [Replica.run, hs] at hc
        exact (ih st1 (hok st1 hs)).1 hc
      | error err =>
        rw [Replica.run, hs] at hc
        have h2 : err = ReplicaErr.slotAlreadyDecided := Except.error.inj hc
        exact hne (by rw [hs, h2])
    · intro stF hF
      cases hs : Replica.step exec st e with
      | ok st1 =>
        rw [Replica.run, hs] at hF
        exact (ih st1 (hok st1 hs)).2 stF hF
      | error err =>
        rw [Replica.run, hs] at hF
        exact absurd hF (by simp)

/-- Events exercising Decision (in and out of order), Invoke and Accepting,
for the C10 witness. -/
def demoEvents : List ReplicaEvent :=
  [ReplicaEvent.decision 0 pDemo, ReplicaEvent.invoke (some 7) 1 5,
   ReplicaEvent.decision 2 pOther, ReplicaEvent.accepting 1,
   ReplicaEvent.decision 1 pOther]

/-- C10, witnessed at a concrete input: a fresh replica (no decisions, commit
slot 0) satisfies the invariant, and running `demoEvents` never trips the
entry assertion. -/
theorem replica_commit_slot_never_decided_witness :
    dictGet replicaDemo.decisions replicaDemo.slot = none ∧
    Replica.run execAdd replicaDemo demoEvents ≠
      Except.error ReplicaErr.slotAlreadyDecided := by
  refine ⟨by decide, ?_⟩
  exact (replica_commit_slot_never_decided execAdd demoEvents replicaDemo (by decide)).1
